import Mathlib

/-!
Verification of the convos-agent pool manager's control loop against its
specification.  The definitions below are a shallow embedding of the
JavaScript sources: `status.js` (status derivation), `cache.js` (in-memory
state cache and claim-in-progress set), `db/pool.js` (metadata store),
`pool.js` (tick loop, provisioning, recycle/destroy), `railway.js`
(provider listing) and `sprite.js` (checkpoint streaming client).
Timestamps are integer milliseconds; JavaScript `null`/`undefined` fields
are `Option`; a fallible call's outcome is passed in explicitly, so each
top-level operation is a pure function of its state and its I/O results.
-/

/-- The pool states an instance can be in.  `deriveStatus` returns one of the
first five; `crashed` is only ever written by the reconciler. -/
inductive PoolStatus where
  | starting
  | sleeping
  | dead
  | idle
  | claimed
  | crashed
deriving DecidableEq, Repr

/-- A parsed gateway `/status` (health-check) response: `{ready, conversation}`.
Per the gateway contract the `conversation` field is `null` or a non-null
conversation value, so JavaScript truthiness of the field is its presence. -/
structure Probe where
  ready : Bool
  conversation : Option String
deriving DecidableEq, Repr

/-- Deploy statuses mapped to `starting` (`STARTING_STATUSES` in status.js). -/
def STARTING_STATUSES : List String := ["QUEUED", "WAITING", "BUILDING", "DEPLOYING"]

/-- Deploy statuses mapped to `dead` (`DEAD_STATUSES` in status.js). -/
def DEAD_STATUSES : List String := ["FAILED", "CRASHED", "REMOVED", "SKIPPED"]

/-- `set.has(deployStatus)` on an optional deploy status (a `Set.has` miss on
`null` is `false`). -/
def statusIn (set : List String) : Option String → Bool
  | some s => decide (s ∈ set)
  | none => false

/-- The age guard `age < STUCK_TIMEOUT_MS`, where a missing `createdAt` makes
the JavaScript age `Infinity`, hence never young. -/
def youngAge (stuckTimeoutMs : Int) : Option Int → Bool
  | some age => decide (age < stuckTimeoutMs)
  | none => false

/-- `deriveStatus` from status.js: map `(deployStatus, healthCheck, age)` to a
pool state.  `age` is `Date.now() - createdAt` (`none` when `createdAt` is
absent).  The module-level `STUCK_TIMEOUT_MS` configuration is a parameter. -/
def deriveStatus (stuckTimeoutMs : Int) (deployStatus : Option String)
    (healthCheck : Option Probe) (age : Option Int) : PoolStatus :=
  if deployStatus = some "SLEEPING" then .sleeping
  else if statusIn DEAD_STATUSES deployStatus then .dead
  else if statusIn STARTING_STATUSES deployStatus then .starting
  else if deployStatus = some "SUCCESS" then
    match healthCheck with
    | some hc => if hc.conversation.isSome then .claimed else .idle
    | none => if youngAge stuckTimeoutMs age then .starting else .dead
  else if youngAge stuckTimeoutMs age then .starting else .dead

/-! ## State cache and claim-in-progress set (cache.js) -/

/-- A cache entry, as built by the reconciler and the claim coordinator.
Fields absent on a given entry in JavaScript are `none`. -/
structure Entry where
  serviceId : String
  id : String
  name : String
  url : Option String
  status : PoolStatus
  createdAt : Option Int
  deployStatus : Option String
  agentName : Option String := none
  instructions : Option String := none
  inviteUrl : Option String := none
  conversationId : Option String := none
  claimedAt : Option Int := none
deriving DecidableEq, Repr

/-- `instances.set(serviceId, data)`: replace the entry stored under the key,
or append a new one.  Every call site keys the map by the entry's own
`serviceId`, so the key is taken from the entry. -/
def cacheSet (cache : List Entry) (e : Entry) : List Entry :=
  if cache.any (fun x => x.serviceId == e.serviceId) then
    cache.map (fun x => if x.serviceId = e.serviceId then e else x)
  else cache ++ [e]

/-- `instances.get(serviceId) || null`. -/
def cacheGet (cache : List Entry) (serviceId : String) : Option Entry :=
  cache.find? (fun x => x.serviceId == serviceId)

/-- `instances.delete(serviceId)`. -/
def cacheRemove (cache : List Entry) (serviceId : String) : List Entry :=
  cache.filter (fun x => x.serviceId != serviceId)

/-- The `{starting, idle, claimed, crashed}` counters of `getCounts`. -/
structure Counts where
  starting : Nat
  idle : Nat
  claimed : Nat
  crashed : Nat
deriving DecidableEq, Repr

/-- `getCounts()`: count entries per status; only the four dashboard states
have counters, other statuses are not counted. -/
def getCounts (cache : List Entry) : Counts :=
  cache.foldl (fun c i =>
    match i.status with
    | .starting => { c with starting := c.starting + 1 }
    | .idle => { c with idle := c.idle + 1 }
    | .claimed => { c with claimed := c.claimed + 1 }
    | .crashed => { c with crashed := c.crashed + 1 }
    | _ => c) ⟨0, 0, 0, 0⟩

/-- `findClaimable()`: the first idle instance whose service id is not in the
claim-in-progress set, in cache insertion order. -/
def findClaimable (cache : List Entry) (claiming : List String) : Option Entry :=
  cache.find? (fun i => i.status == .idle && !claiming.contains i.serviceId)

/-- `startClaim(serviceId)`: insert into the claim-in-progress set. -/
def startClaim (claiming : List String) (serviceId : String) : List String :=
  if serviceId ∈ claiming then claiming else claiming ++ [serviceId]

/-- `endClaim(serviceId)`: remove from the claim-in-progress set. -/
def endClaim (claiming : List String) (serviceId : String) : List String :=
  claiming.filter (fun s => s ≠ serviceId)

/-- `isBeingClaimed(serviceId)`. -/
def isBeingClaimed (claiming : List String) (serviceId : String) : Bool :=
  claiming.contains serviceId

/-! ## Metadata store (db/pool.js, `agent_metadata` table) -/

/-- A row of `agent_metadata`, written only on successful claim. -/
structure MetaRow where
  id : String
  railway_service_id : String
  agent_name : String
  conversation_id : Option String
  invite_url : Option String
  instructions : Option String
  claimed_at : Int
deriving DecidableEq, Repr

/-- `findByServiceId` / the tick's `metadataByServiceId` lookup. -/
def metaFind (meta : List MetaRow) (serviceId : String) : Option MetaRow :=
  meta.find? (fun r => r.railway_service_id == serviceId)

/-! ## Provider listing (railway.js) -/

/-- A service as returned by `listProjectServices`, already shaped into
`{id, name, createdAt, environmentIds, deployStatus}`. -/
structure Service where
  id : String
  name : String
  createdAt : Option Int
  environmentIds : List String
  deployStatus : Option String
deriving DecidableEq, Repr

/-- `listProjectServices()`: a thrown GraphQL error is caught and yields the
`null` sentinel, as does a response with no `project.services.edges`;
otherwise the mapped rows are returned.  The per-edge field extraction is
carried by the `Service` records in the call's result. -/
def listProjectServices (apiResult : Except String (Option (List Service))) :
    Option (List Service) :=
  match apiResult with
  | .error _ => none
  | .ok none => none
  | .ok (some rows) => some rows

/-! ## The reconciler tick (pool.js `tick`) -/

/-- Configuration and ambient inputs of a tick: the environment id, the pool
shape targets, the stuck timeout and the current time. -/
structure TickEnv where
  myEnvId : Option String
  MIN_IDLE : Int
  MAX_TOTAL : Int
  stuckTimeoutMs : Int
  now : Int

/-- The values a successful `createInstance()` obtains from the provider:
the generated 12-char id, the new service id and the allocated domain. -/
structure CreateOk where
  id : String
  serviceId : String
  domain : String
deriving DecidableEq, Repr

/-- The I/O outcomes a tick observes: the (possibly unavailable) provider
listing, per-service domain lookups, per-service health-check results, and
one outcome per `createInstance()` attempt (`none` = the attempt threw). -/
structure TickIO where
  listing : Option (List Service)
  fetchUrl : String → Option String
  probe : String → Option Probe
  createResults : List (Option CreateOk)

/-- Filter the listing to agent services in our environment. -/
def filterAgentServices (myEnvId : String) (allServices : List Service) : List Service :=
  allServices.filter (fun s =>
    s.name.startsWith "convos-agent-" && s.name != "convos-agent-pool-manager" &&
      s.environmentIds.contains myEnvId)

/-- The tick's `urlMap` entry for a service: only `SUCCESS` services get one,
from the cached url when present, else from a `getServiceUrl` lookup (which
returns `none` on failure). -/
def urlMapFor (cache0 : List Entry) (fetchUrl : String → Option String)
    (svc : Service) : Option String :=
  if svc.deployStatus = some "SUCCESS" then
    match (cacheGet cache0 svc.id).bind Entry.url with
    | some u => some u
    | none => fetchUrl svc.id
  else none

/-- The health-check result the rebuild loop sees for a service
(`healthResults.get(svc.id) || null`): only `SUCCESS` services with a known
url and not being claimed were probed; all others read `null`. -/
def hcFor (cache0 : List Entry) (claiming : List String)
    (fetchUrl : String → Option String) (probe : String → Option Probe)
    (svc : Service) : Option Probe :=
  if (urlMapFor cache0 fetchUrl svc).isSome && !claiming.contains svc.id then
    probe svc.id
  else none

/-- The cache entry written for a dead/sleeping service that still has a
metadata row: status `crashed`, display fields copied from metadata. -/
def crashedEntry (svc : Service) (m : MetaRow) (url : Option String) : Entry :=
  { serviceId := svc.id, id := m.id, name := svc.name, url := url,
    status := .crashed, createdAt := svc.createdAt, deployStatus := svc.deployStatus,
    agentName := some m.agent_name, instructions := m.instructions,
    inviteUrl := m.invite_url, conversationId := m.conversation_id,
    claimedAt := some m.claimed_at }

/-- The cache entry written for a live service, enriched from metadata when a
row exists (`id: metadata?.id || svc.name.replace("convos-agent-", "")`). -/
def liveEntry (svc : Service) (st : PoolStatus) (url : Option String)
    (m : Option MetaRow) : Entry :=
  match m with
  | some mm =>
    { serviceId := svc.id, id := mm.id, name := svc.name, url := url, status := st,
      createdAt := svc.createdAt, deployStatus := svc.deployStatus,
      agentName := some mm.agent_name, instructions := mm.instructions,
      inviteUrl := mm.invite_url, conversationId := mm.conversation_id,
      claimedAt := some mm.claimed_at }
  | none =>
    { serviceId := svc.id, id := svc.name.replace "convos-agent-" "",
      name := svc.name, url := url, status := st, createdAt := svc.createdAt,
      deployStatus := svc.deployStatus }

/-- The url written on a rebuilt entry:
`urlMap.get(svc.id) || cache.get(svc.id)?.url || null`. -/
def tickUrl (cache0 : List Entry) (fetchUrl : String → Option String)
    (svc : Service) : Option String :=
  match urlMapFor cache0 fetchUrl svc with
  | some u => some u
  | none => (cacheGet cache0 svc.id).bind Entry.url

/-- One iteration of the tick's rebuild loop over `(cache, toDelete)`:
services being claimed are skipped entirely; dead/sleeping services are
rewritten to `crashed` when a metadata row exists and otherwise removed and
scheduled for deletion; every other service gets a fresh derived entry.  The
JavaScript call also passes `hasMetadata` to `deriveStatus`, which the
deriver's parameter list ignores. -/
def tickStep (env : TickEnv) (meta : List MetaRow) (claiming : List String)
    (cache0 : List Entry) (fetchUrl : String → Option String)
    (probe : String → Option Probe) (acc : List Entry × List String)
    (svc : Service) : List Entry × List String :=
  if claiming.contains svc.id then acc
  else
    let hc := hcFor cache0 claiming fetchUrl probe svc
    let metadata := metaFind meta svc.id
    let status := deriveStatus env.stuckTimeoutMs svc.deployStatus hc
      (svc.createdAt.map (fun c => env.now - c))
    let url := tickUrl cache0 fetchUrl svc
    if status = .dead ∨ status = .sleeping then
      match metadata with
      | some m => (cacheSet acc.1 (crashedEntry svc m url), acc.2)
      | none => (cacheRemove acc.1 svc.id, acc.2 ++ [svc.id])
    else
      (cacheSet acc.1 (liveEntry svc status url metadata), acc.2)

/-- Remove cache entries whose service id no longer appears among in-scope
services and is not in the claim-in-progress set. -/
def tickPrune (agentIds : List String) (claiming : List String)
    (cache : List Entry) : List Entry :=
  cache.filter (fun i => agentIds.contains i.serviceId || claiming.contains i.serviceId)

/-- The cache entry `createInstance()` inserts as soon as its service id is
known: status `starting`, deploy status `BUILDING`. -/
def newStartingEntry (now : Int) (c : CreateOk) : Entry :=
  { serviceId := c.serviceId, id := c.id, name := "convos-agent-" ++ c.id,
    url := some ("https://" ++ c.domain), status := .starting,
    createdAt := some now, deployStatus := some "BUILDING" }

/-- Run the replenish loop's `createInstance()` attempts: a failed attempt is
caught and logged, a successful one inserts a `starting` cache entry.
Returns the cache and the number of instances created. -/
def applyCreates (now : Int) (cache : List Entry)
    (results : List (Option CreateOk)) : List Entry × Nat :=
  results.foldl (fun acc r =>
    match r with
    | some ok => (cacheSet acc.1 (newStartingEntry now ok), acc.2 + 1)
    | none => acc) (cache, 0)

/-- The tick's replenish phase: recompute counts, and when the idle+starting
deficit is positive create up to `min(deficit, MAX_TOTAL - total)` new
instances. -/
def tickReplenish (env : TickEnv) (createResults : List (Option CreateOk))
    (cache : List Entry) : List Entry × Nat :=
  let counts := getCounts cache
  let total : Int := (counts.starting : Int) + counts.idle + counts.claimed
  let deficit : Int := env.MIN_IDLE - ((counts.idle : Int) + counts.starting)
  if 0 < deficit then
    let canCreate := min deficit (env.MAX_TOTAL - total)
    if 0 < canCreate then applyCreates env.now cache (createResults.take canCreate.toNat)
    else (cache, 0)
  else (cache, 0)

/-- Why a tick ended. -/
inductive TickOutcome where
  | skippedNoEnv
  | skippedListingUnavailable
  | completed
deriving DecidableEq, Repr

/-- The shared mutable state of the control plane: the cache, the
claim-in-progress set and the metadata table. -/
structure PoolState where
  cache : List Entry
  claiming : List String
  meta : List MetaRow
deriving DecidableEq, Repr

/-- A tick's result: the new state, the provider deletes it issued, and how
many instances its replenish phase created. -/
structure TickResult where
  state : PoolState
  deleted : List String
  created : Nat
  outcome : TickOutcome

/-- One reconciler tick (pool.js `tick`): bail out without side effects when
the environment id is unset or the listing is unavailable; otherwise rebuild
the cache from the listing, prune entries for vanished services, execute the
scheduled deletes and replenish. -/
def tick (env : TickEnv) (io : TickIO) (st : PoolState) : TickResult :=
  match env.myEnvId with
  | none => ⟨st, [], 0, .skippedNoEnv⟩
  | some envId =>
    match io.listing with
    | none => ⟨st, [], 0, .skippedListingUnavailable⟩
    | some allServices =>
      let agentServices := filterAgentServices envId allServices
      let rebuilt := agentServices.foldl
        (tickStep env st.meta st.claiming st.cache io.fetchUrl io.probe) (st.cache, [])
      let pruned := tickPrune (agentServices.map Service.id) st.claiming rebuilt.1
      let rep := tickReplenish env io.createResults pruned
      ⟨⟨rep.1, st.claiming, st.meta⟩, rebuilt.2, rep.2, .completed⟩

/-! ## The claim coordinator (pool.js `provision`) -/

/-- Parsed body of the `/convos-sdk/setup` response. -/
structure SetupResult where
  conversationId : Option String
  inviteUrl : Option String
deriving DecidableEq, Repr

/-- Parsed body of the `/convos-sdk/join` response. -/
structure JoinResult where
  conversationId : Option String
deriving DecidableEq, Repr

/-- The I/O outcomes a claim observes, in call order: whether the
`/pool/provision` call was `ok`; the `/convos-sdk/setup` body (`none` when
that call was not `ok`); whether `/convos-sdk/setup/complete` was `ok`; the
`/convos-sdk/join` body (`none` when not `ok`); whether the metadata insert
committed; and the claim timestamp. -/
structure ProvisionIO where
  provisionOk : Bool
  setup : Option SetupResult
  completeOk : Bool
  joinResult : Option JoinResult
  insertOk : Bool
  now : Int

/-- The JavaScript `result` local accumulated across setup and join. -/
structure ClaimOutcome where
  conversationId : Option String
  inviteUrl : Option String
  joined : Bool
deriving DecidableEq, Repr

/-- The response body returned on a successful claim. -/
structure ProvResponse where
  inviteUrl : Option String
  conversationId : Option String
  instanceId : String
  joined : Bool
deriving DecidableEq, Repr

/-- How a claim ends: no idle instance (the HTTP layer surfaces 503), a
thrown error naming the failed step, or success. -/
inductive ProvResult where
  | noIdle
  | failed (step : String)
  | ok (resp : ProvResponse)
deriving DecidableEq, Repr

/-- The synchronous prefix of `provision`: select a claimable instance and
insert its service id into the claim-in-progress set.  In the source this
happens before the first `await`, so no other task can run in between. -/
def provisionStart (st : PoolState) : Option (Entry × PoolState) :=
  match findClaimable st.cache st.claiming with
  | none => none
  | some inst =>
    some (inst, { st with claiming := startClaim st.claiming inst.serviceId })

/-- The `finally` block: remove the service id from the claim-in-progress
set, whatever the result. -/
def provisionFinish (st : PoolState) (serviceId : String) (r : ProvResult) :
    PoolState × ProvResult :=
  ({ st with claiming := endClaim st.claiming serviceId }, r)

/-- The tail of a claim after the conversation is established: insert the
metadata row, then set the cache entry to `claimed` (the later service
rename is fire-and-forget and does not touch this state). -/
def provisionCommit (agentName instrText : String) (joinUrl : Option String)
    (io : ProvisionIO) (st1 : PoolState) (inst : Entry) (result : ClaimOutcome) :
    PoolState × ProvResult :=
  if !io.insertOk then provisionFinish st1 inst.serviceId (.failed "insertMetadata")
  else
    let row : MetaRow :=
      { id := inst.id, railway_service_id := inst.serviceId,
        agent_name := agentName, conversation_id := result.conversationId,
        invite_url := result.inviteUrl.or joinUrl,
        instructions := some instrText, claimed_at := io.now }
    let entry : Entry :=
      { inst with
        status := .claimed
        agentName := some agentName
        conversationId := result.conversationId
        inviteUrl := result.inviteUrl.or joinUrl
        instructions := some instrText
        claimedAt := some io.now }
    provisionFinish
      ⟨cacheSet st1.cache entry, st1.claiming, st1.meta ++ [row]⟩
      inst.serviceId
      (.ok ⟨result.inviteUrl, result.conversationId, inst.id, result.joined⟩)

/-- `provision(agentName, instructions, joinUrl)` from pool.js: claim an idle
instance and provision it.  Each `!res.ok` throw is a `.failed` result; the
`try/finally` releasing the claim-in-progress guard is `provisionFinish` on
every path. -/
def provision (agentName instrText : String) (joinUrl : Option String)
    (io : ProvisionIO) (st : PoolState) : PoolState × ProvResult :=
  match provisionStart st with
  | none => (st, .noIdle)
  | some (inst, st1) =>
    if !io.provisionOk then provisionFinish st1 inst.serviceId (.failed "provision")
    else match io.setup with
    | none => provisionFinish st1 inst.serviceId (.failed "setup")
    | some setupResult =>
      if !io.completeOk then
        provisionFinish st1 inst.serviceId (.failed "setup complete")
      else
        let result0 : ClaimOutcome :=
          ⟨setupResult.conversationId, setupResult.inviteUrl, false⟩
        match joinUrl with
        | some ju =>
          match io.joinResult with
          | none => provisionFinish st1 inst.serviceId (.failed "join")
          | some jr =>
            provisionCommit agentName instrText joinUrl io st1 inst
              ⟨jr.conversationId.or result0.conversationId, some ju, true⟩
        | none => provisionCommit agentName instrText joinUrl io st1 inst result0

/-! ## Checkpoint streaming client (sprite.js) -/

/-- A parsed NDJSON event: an optional checkpoint id and an optional status
string; a line that is not valid JSON is `none` in the stream below. -/
structure NdjsonMsg where
  id : Option String
  status : Option String
deriving DecidableEq, Repr

/-- `consumeNdjsonStream(response)`: walk the complete lines of the response,
ignore non-JSON lines, remember the id of the last event that carried one
(`if (msg.id) lastId = msg.id`), and return it — `null` when no event carried
an id. -/
def consumeNdjsonStream (lines : List (Option NdjsonMsg)) : Option String :=
  lines.foldl (fun lastId l =>
    match l with
    | none => lastId
    | some msg =>
      match msg.id with
      | some i => some i
      | none => lastId) none

/-- `createCheckpoint(name, comment)`: start the checkpoint, consume the
NDJSON stream, and return whatever id the stream yielded.  The call itself
never rejects once the stream is being consumed. -/
def createCheckpoint (stream : List (Option NdjsonMsg)) :
    Except String (Option String) :=
  .ok (consumeNdjsonStream stream)

/-- The id carried by a stream line: `none` for non-JSON lines and for events
without an `id` field. -/
def ndjsonEventId : Option NdjsonMsg → Option String
  | none => none
  | some msg => msg.id

/-! ## Recycle and destroy (pool.js, sprite-era `pool_instances` table) -/

/-- A `pool_instances` row as read by `recycleInstance`/`destroyInstance`. -/
structure DbInstance where
  id : String
  sprite_name : String
  sprite_url : String
  status : String
  checkpoint_id : Option String
  claimed_by : Option String
  invite_url : Option String
  conversation_id : Option String
  instructions : Option String
  join_url : Option String
  claimed_at : Option Int
deriving DecidableEq, Repr

/-- `db.markIdle(id, spriteUrl, checkpointId)`: set status `idle`, refresh
the url, keep the existing checkpoint when none is supplied
(`COALESCE($3, checkpoint_id)`), and null out every claim-time field. -/
def markIdle (rows : List DbInstance) (id : String) (spriteUrl : String)
    (checkpointId : Option String) : List DbInstance :=
  rows.map (fun r =>
    if r.id = id then
      { r with
        status := "idle"
        sprite_url := spriteUrl
        checkpoint_id := checkpointId.or r.checkpoint_id
        claimed_by := none
        invite_url := none
        conversation_id := none
        instructions := none
        join_url := none
        claimed_at := none }
    else r)

/-- `db.deleteInstance(id)`. -/
def deleteInstance (rows : List DbInstance) (id : String) : List DbInstance :=
  rows.filter (fun r => r.id ≠ id)

/-- The I/O outcomes a recycle observes: whether the checkpoint restore, the
gateway restart and the readiness wait succeeded. -/
structure RecycleIO where
  restoreOk : Bool
  startGatewayOk : Bool
  waitReadyOk : Bool
deriving DecidableEq, Repr

/-- How `recycleInstance` ends: the id was unknown (an error is thrown), the
instance was destroyed (the fallback path), or it was returned to idle. -/
inductive RecycleOutcome where
  | notFound
  | destroyed
  | recycled
deriving DecidableEq, Repr

/-- `recycleInstance(id)` from pool.js: look the instance up; with no
recorded checkpoint id fall through to destroy; restore the checkpoint,
restart the gateway and wait for readiness, destroying on any failure; on
success mark the row idle (which clears the claim-time fields and keeps the
checkpoint).  Destroy deletes the Sprite (failures swallowed) and removes
the row. -/
def recycleInstance (rows : List DbInstance) (id : String) (io : RecycleIO) :
    List DbInstance × RecycleOutcome :=
  match rows.find? (fun r => r.id == id) with
  | none => (rows, .notFound)
  | some inst =>
    match inst.checkpoint_id with
    | none => (deleteInstance rows id, .destroyed)
    | some _ =>
      if io.restoreOk && io.startGatewayOk && io.waitReadyOk then
        (markIdle rows inst.id inst.sprite_url none, .recycled)
      else
        (deleteInstance rows id, .destroyed)

/-- The number of cache entries in a given status (the per-status counter of
`getCounts`, expressed as a `countP`). -/
def countStatus (cache : List Entry) (s : PoolStatus) : Nat :=
  cache.countP (fun e => e.status == s)

/-! ## Concrete fixtures used by the witness theorems -/

/-- A single idle cache entry, as after scenario "cold start: first idle". -/
def entryA : Entry :=
  { serviceId := "svc-A", id := "aaaa", name := "convos-agent-aaaa",
    url := some "https://a.example", status := .idle, createdAt := some 0,
    deployStatus := some "SUCCESS" }

/-- A pool with exactly one idle instance and no claim in progress. -/
def stOneIdle : PoolState := ⟨[entryA], [], []⟩

/-- The empty pool state. -/
def stEmpty : PoolState := ⟨[], [], []⟩

/-- A service whose latest deployment failed. -/
def svcF : Service :=
  { id := "svc-F", name := "convos-agent-ffff", createdAt := some 0,
    environmentIds := ["env-1"], deployStatus := some "FAILED" }

/-- The metadata row recorded when `svc-F` was claimed. -/
def rowF : MetaRow :=
  { id := "ffff", railway_service_id := "svc-F", agent_name := "tokyo",
    conversation_id := some "conv-1", invite_url := some "https://i/xyz",
    instructions := some "plan trips", claimed_at := 5 }

/-- A concrete tick configuration (defaults: MIN_IDLE 3, MAX_TOTAL 10). -/
def envFix : TickEnv := ⟨some "env-1", 3, 10, 900000, 0⟩

/-- Tick I/O with the provider listing unavailable. -/
def ioNone : TickIO := ⟨none, fun _ => none, fun _ => none, []⟩

/-- A domain lookup that always fails. -/
def noUrl : String → Option String := fun _ => none

/-- A health probe that always times out. -/
def noProbe : String → Option Probe := fun _ => none

/-- A claimed `pool_instances` row with a recorded golden checkpoint. -/
def rowD : DbInstance :=
  { id := "dddd", sprite_name := "convos-agent-dddd",
    sprite_url := "https://d.example", status := "claimed",
    checkpoint_id := some "v0", claimed_by := some "tokyo",
    invite_url := some "https://i/abc", conversation_id := some "conv-2",
    instructions := some "plan trips", join_url := none, claimed_at := some 9 }

/-! ## Theorems -/

/-- C1: the status deriver agrees with the spec table row by row: the four
build-phase deploy statuses give `starting`; `SLEEPING` gives `sleeping`; the
four terminal deploy statuses give `dead`; `SUCCESS` with a ready probe gives
`idle` without a conversation and `claimed` with one; `SUCCESS` without a
probe gives `starting` below `STUCK_TIMEOUT` and `dead` at or above it
(including exactly at it); and a null or unknown deploy status also splits on
`STUCK_TIMEOUT` the same way. -/
theorem deriveStatus_spec_table (T : Int) (p : Option Probe) (a : Int) :
    (∀ s, s ∈ STARTING_STATUSES → deriveStatus T (some s) p (some a) = .starting) ∧
    deriveStatus T (some "SLEEPING") p (some a) = .sleeping ∧
    (∀ s, s ∈ DEAD_STATUSES → deriveStatus T (some s) p (some a) = .dead) ∧
    deriveStatus T (some "SUCCESS") (some ⟨true, none⟩) (some a) = .idle ∧
    (∀ c, deriveStatus T (some "SUCCESS") (some ⟨true, some c⟩) (some a) = .claimed) ∧
    (a < T → deriveStatus T (some "SUCCESS") none (some a) = .starting) ∧
    (T ≤ a → deriveStatus T (some "SUCCESS") none (some a) = .dead) ∧
    deriveStatus T (some "SUCCESS") none (some T) = .dead ∧
    (a < T → deriveStatus T none p (some a) = .starting) ∧
    (T ≤ a → deriveStatus T none p (some a) = .dead) ∧
    (∀ s, s ∉ STARTING_STATUSES → s ∉ DEAD_STATUSES → s ≠ "SLEEPING" → s ≠ "SUCCESS" →
      (a < T → deriveStatus T (some s) p (some a) = .starting) ∧
      (T ≤ a → deriveStatus T (some s) p (some a) = .dead)) := by
  refine ⟨?_, ?_, ?_, ?_, ?_, ?_, ?_, ?_, ?_, ?_, ?_⟩
  · intro s hs
    fin_cases hs <;> simp [deriveStatus, statusIn, STARTING_STATUSES, DEAD_STATUSES]
  · simp [deriveStatus]
  · intro s hs
    fin_cases hs <;> simp [deriveStatus, statusIn, STARTING_STATUSES, DEAD_STATUSES]
  · simp [deriveStatus, statusIn, STARTING_STATUSES, DEAD_STATUSES]
  · intro c
    simp [deriveStatus, statusIn, STARTING_STATUSES, DEAD_STATUSES]
  · intro h
    simp [deriveStatus, statusIn, STARTING_STATUSES, DEAD_STATUSES, youngAge, h]
  · intro h
    simp [deriveStatus, statusIn, STARTING_STATUSES, DEAD_STATUSES, youngAge, not_lt.mpr h]
  · simp [deriveStatus, statusIn, STARTING_STATUSES, DEAD_STATUSES, youngAge]
  · intro h
    simp [deriveStatus, statusIn, youngAge, h]
  · intro h
    simp [deriveStatus, statusIn, youngAge, not_lt.mpr h]
  · intro s h1 h2 h3 h4
    constructor
    · intro h
      simp [deriveStatus, statusIn, youngAge, h, h1, h2, h3, h4]
    · intro h
      simp [deriveStatus, statusIn, youngAge, not_lt.mpr h, h1, h2, h3, h4]

/-- Witness for C1 at concrete inputs (`STUCK_TIMEOUT` = 900000 ms). -/
theorem deriveStatus_spec_table_witness :
    deriveStatus 900000 (some "BUILDING") none (some 0) = .starting ∧
    deriveStatus 900000 (some "SUCCESS") none (some 900000) = .dead ∧
    deriveStatus 900000 (some "NEVER_DEPLOYED") none (some 900001) = .dead := by
  refine ⟨?_, ?_, ?_⟩
  · exact (deriveStatus_spec_table 900000 none 0).1 "BUILDING" (by decide)
  · exact (deriveStatus_spec_table 900000 none 900000).2.2.2.2.2.2.2.1
  · exact ((deriveStatus_spec_table 900000 none 900001).2.2.2.2.2.2.2.2.2.2
      "NEVER_DEPLOYED" (by decide) (by decide) (by decide) (by decide)).2 (by decide)

/-- C7: the status deriver is total — it always returns one of the five
derivable pool states — and deterministic: equal inputs give equal outputs. -/
theorem deriveStatus_total_deterministic
    (T : Int) (d : Option String) (p : Option Probe) (a : Option Int) :
    deriveStatus T d p a ∈
      [PoolStatus.starting, .sleeping, .dead, .idle, .claimed] ∧
    (∀ T' d' p' a', T = T' → d = d' → p = p' → a = a' →
      deriveStatus T d p a = deriveStatus T' d' p' a') := by
  constructor
  · unfold deriveStatus
    (repeat' split) <;> simp
  · intro T' d' p' a' h1 h2 h3 h4
    subst h1; subst h2; subst h3; subst h4; rfl

/-- Witness for C7 at a concrete input. -/
theorem deriveStatus_total_deterministic_witness :
    deriveStatus 900000 (some "SUCCESS") (some ⟨true, none⟩) (some 0) ∈
      [PoolStatus.starting, .sleeping, .dead, .idle, .claimed] ∧
    deriveStatus 900000 (some "SUCCESS") (some ⟨true, none⟩) (some 0) =
      deriveStatus 900000 (some "SUCCESS") (some ⟨true, none⟩) (some 0) := by
  refine ⟨(deriveStatus_total_deterministic 900000 (some "SUCCESS")
      (some ⟨true, none⟩) (some 0)).1, ?_⟩
  exact (deriveStatus_total_deterministic 900000 (some "SUCCESS")
      (some ⟨true, none⟩) (some 0)).2 900000 (some "SUCCESS")
      (some ⟨true, none⟩) (some 0) rfl rfl rfl rfl

/-- C10: on `SUCCESS` with a non-null probe the deriver ignores the probe's
`ready` field entirely: the result is `claimed` exactly when the probe's
`conversation` field is non-null, and `idle` otherwise — even with
`ready = false`. -/
theorem deriveStatus_ignores_ready (T : Int) (r : Bool) (c : Option String)
    (a : Option Int) :
    deriveStatus T (some "SUCCESS") (some ⟨r, c⟩) a =
      (if c.isSome then .claimed else .idle) := by
  simp [deriveStatus, statusIn, STARTING_STATUSES, DEAD_STATUSES]

/-- Whatever `findClaimable` returns is an idle cache entry whose service id
is not in the claim-in-progress set. -/
theorem findClaimable_sound (cache : List Entry) (claiming : List String)
    (i : Entry) (h : findClaimable cache claiming = some i) :
    i ∈ cache ∧ i.status = .idle ∧ claiming.contains i.serviceId = false := by
  have hmem := List.mem_of_find?_eq_some h
  have hp := List.find?_some h
  simp only [Bool.and_eq_true, beq_iff_eq, Bool.not_eq_true'] at hp
  exact ⟨hmem, hp.1, hp.2⟩

/-- `startClaim` really puts the id in the set. -/
theorem contains_startClaim_self (cl : List String) (s : String) :
    (startClaim cl s).contains s = true := by
  unfold startClaim
  split <;> simp_all

/-- Membership form of `contains_startClaim_self`. -/
theorem mem_startClaim_self (cl : List String) (s : String) : s ∈ startClaim cl s := by
  unfold startClaim
  split <;> simp_all

/-- Releasing a freshly inserted id restores the set. -/
theorem endClaim_startClaim (cl : List String) (s : String)
    (h : cl.contains s = false) : endClaim (startClaim cl s) s = cl := by
  have hs : s ∉ cl := by simpa using h
  unfold startClaim endClaim
  rw [if_neg hs, List.filter_append]
  have h1 : cl.filter (fun x => decide ¬(x = s)) = cl := by
    apply List.filter_eq_self.mpr
    intro a ha
    simp only [decide_eq_true_eq]
    exact fun has => hs (has ▸ ha)
  simp only [ne_eq, h1]
  simp

/-- Looking up the key just stored by `cacheSet` yields the stored entry. -/
theorem cacheGet_cacheSet (cache : List Entry) (e : Entry) :
    cacheGet (cacheSet cache e) e.serviceId = some e := by
  unfold cacheGet cacheSet
  by_cases h : cache.any (fun x => x.serviceId == e.serviceId)
  · rw [if_pos h]
    induction cache with
    | nil => simp at h
    | cons x xs ih =>
      simp only [List.map_cons]
      by_cases hx : x.serviceId = e.serviceId
      · rw [if_pos hx]
        exact List.find?_cons_of_pos _ (by simp)
      · rw [if_neg hx, List.find?_cons_of_neg _ (by simpa using hx)]
        simp only [List.any_cons, Bool.or_eq_true, beq_iff_eq] at h
        rcases h with h | h
        · exact absurd h hx
        · exact ih (List.any_eq_true.mpr (by simpa using h))
  · rw [if_neg h]
    rw [List.find?_append]
    have hnone : cache.find? (fun x => x.serviceId == e.serviceId) = none := by
      rw [List.find?_eq_none]
      intro x hx hbeq
      exact h (List.any_eq_true.mpr ⟨x, hx, hbeq⟩)
    simp [hnone, List.find?]

/-- After `cacheRemove` the key is gone. -/
theorem cacheGet_cacheRemove (cache : List Entry) (sid : String) :
    cacheGet (cacheRemove cache sid) sid = none := by
  unfold cacheGet cacheRemove
  rw [List.find?_eq_none]
  intro x hx
  have := (List.mem_filter.mp hx).2
  simp_all

/-- C5: a tick that sees the `Unavailable` listing sentinel (the `null` that
`listProjectServices` returns when the GraphQL call throws or the response
has no edges) performs no destructive action: the state — cache, claiming
set and metadata — is unchanged, no provider delete is issued and no
instance is created. -/
theorem tick_listing_unavailable_no_action (env : TickEnv) (io : TickIO)
    (st : PoolState) (h : io.listing = none) :
    (tick env io st).state = st ∧ (tick env io st).deleted = [] ∧
    (tick env io st).created = 0 ∧
    (∀ msg, listProjectServices (Except.error msg) = none) ∧
    listProjectServices (Except.ok none) = none := by
  cases henv : env.myEnvId <;>
    simp [tick, henv, h, listProjectServices]

/-- Witness for C5: a concrete tick against an unavailable listing. -/
theorem tick_listing_unavailable_no_action_witness :
    (tick envFix ioNone stOneIdle).state = stOneIdle ∧
    (tick envFix ioNone stOneIdle).deleted = [] ∧
    (tick envFix ioNone stOneIdle).created = 0 := by
  have h := tick_listing_unavailable_no_action envFix ioNone stOneIdle rfl
  exact ⟨h.1, h.2.1, h.2.2.1⟩

/-- C6: during a tick, an in-scope service (not being claimed) whose derived
state is `dead` or `sleeping` has its cache entry rewritten to `crashed` —
with display fields copied from metadata — exactly when a metadata row for it
exists; with no metadata row the entry is silently removed from the cache and
a provider delete is scheduled. -/
theorem tick_dead_sleeping_crashed_iff_metadata
    (env : TickEnv) (meta : List MetaRow) (claiming : List String)
    (cache0 : List Entry) (fetchUrl : String → Option String)
    (probe : String → Option Probe) (acc : List Entry × List String)
    (svc : Service)
    (hnc : claiming.contains svc.id = false)
    (hds : deriveStatus env.stuckTimeoutMs svc.deployStatus
        (hcFor cache0 claiming fetchUrl probe svc)
        (svc.createdAt.map (fun c => env.now - c)) = .dead ∨
      deriveStatus env.stuckTimeoutMs svc.deployStatus
        (hcFor cache0 claiming fetchUrl probe svc)
        (svc.createdAt.map (fun c => env.now - c)) = .sleeping) :
    (∀ m, metaFind meta svc.id = some m →
      tickStep env meta claiming cache0 fetchUrl probe acc svc =
        (cacheSet acc.1 (crashedEntry svc m (tickUrl cache0 fetchUrl svc)), acc.2) ∧
      cacheGet (tickStep env meta claiming cache0 fetchUrl probe acc svc).1 svc.id =
        some (crashedEntry svc m (tickUrl cache0 fetchUrl svc)) ∧
      (crashedEntry svc m (tickUrl cache0 fetchUrl svc)).status = .crashed ∧
      (crashedEntry svc m (tickUrl cache0 fetchUrl svc)).agentName = some m.agent_name ∧
      (crashedEntry svc m (tickUrl cache0 fetchUrl svc)).conversationId = m.conversation_id ∧
      (crashedEntry svc m (tickUrl cache0 fetchUrl svc)).inviteUrl = m.invite_url ∧
      (crashedEntry svc m (tickUrl cache0 fetchUrl svc)).instructions = m.instructions) ∧
    (metaFind meta svc.id = none →
      tickStep env meta claiming cache0 fetchUrl probe acc svc =
        (cacheRemove acc.1 svc.id, acc.2 ++ [svc.id]) ∧
      cacheGet (tickStep env meta claiming cache0 fetchUrl probe acc svc).1 svc.id =
        none) := by
  constructor
  · intro m hm
    have hnc' : svc.id ∉ claiming := by simpa using hnc
    have hstep : tickStep env meta claiming cache0 fetchUrl probe acc svc =
        (cacheSet acc.1 (crashedEntry svc m (tickUrl cache0 fetchUrl svc)), acc.2) := by
      unfold tickStep
      rcases hds with hd | hd <;> simp [hnc', hd, hm]
    refine ⟨hstep, ?_, rfl, rfl, rfl, rfl, rfl⟩
    rw [hstep]
    exact cacheGet_cacheSet acc.1 _
  · intro hm
    have hnc' : svc.id ∉ claiming := by simpa using hnc
    have hstep : tickStep env meta claiming cache0 fetchUrl probe acc svc =
        (cacheRemove acc.1 svc.id, acc.2 ++ [svc.id]) := by
      unfold tickStep
      rcases hds with hd | hd <;> simp [hnc', hd, hm]
    refine ⟨hstep, ?_⟩
    rw [hstep]
    exact cacheGet_cacheRemove acc.1 svc.id

/-- Witness for C6: a `FAILED` claimed service is rewritten to `crashed` when
its metadata row is present, and removed with a delete scheduled when not. -/
theorem tick_dead_sleeping_crashed_iff_metadata_witness :
    tickStep envFix [rowF] [] [] noUrl noProbe ([], []) svcF =
      (cacheSet [] (crashedEntry svcF rowF (tickUrl [] noUrl svcF)), []) ∧
    tickStep envFix [] [] [] noUrl noProbe ([], []) svcF =
      (cacheRemove [] svcF.id, [] ++ [svcF.id]) := by
  refine ⟨?_, ?_⟩
  · exact ((tick_dead_sleeping_crashed_iff_metadata envFix [rowF] [] [] noUrl
      noProbe ([], []) svcF rfl (Or.inl rfl)).1 rowF rfl).1
  · exact ((tick_dead_sleeping_crashed_iff_metadata envFix [] [] [] noUrl
      noProbe ([], []) svcF rfl (Or.inl rfl)).2 rfl).1

/-- C2: once the first claim's synchronous prefix (`findClaimable` +
`startClaim`, which run before any awaited I/O) has picked the single idle
instance, its service id is in the claim-in-progress set, so a concurrent
second claim selects nothing and returns the no-idle result (surfaced as
503); in general `findClaimable` never selects an id in the set, the tick's
rebuild loop skips such services entirely, and the prune step never evicts
their entries. -/
theorem claim_guard_blocks_second_claim (st : PoolState) (inst : Entry)
    (st1 : PoolState) (h : provisionStart st = some (inst, st1))
    (hsingle : ∀ e ∈ st.cache, e.status = .idle → e.serviceId = inst.serviceId) :
    isBeingClaimed st1.claiming inst.serviceId = true ∧
    st1.cache = st.cache ∧
    (∀ a i j io, provision a i j io st1 = (st1, .noIdle)) ∧
    (∀ cache claiming i, findClaimable cache claiming = some i →
      i.status = .idle ∧ claiming.contains i.serviceId = false) ∧
    (∀ env meta claiming cache0 fetchUrl probe acc svc,
      claiming.contains svc.id = true →
      tickStep env meta claiming cache0 fetchUrl probe acc svc = acc) ∧
    (∀ agentIds claiming cache e, e ∈ cache →
      claiming.contains e.serviceId = true →
      e ∈ tickPrune agentIds claiming cache) := by
  unfold provisionStart at h
  cases hf : findClaimable st.cache st.claiming with
  | none => rw [hf] at h; simp at h
  | some i0 =>
    rw [hf] at h
    simp only [Option.some.injEq, Prod.mk.injEq] at h
    obtain ⟨hi, hst⟩ := h
    subst hi
    subst hst
    refine ⟨?_, rfl, ?_, ?_, ?_, ?_⟩
    · simpa [isBeingClaimed] using contains_startClaim_self st.claiming i0.serviceId
    · intro a i j io
      have hnone : findClaimable st.cache (startClaim st.claiming i0.serviceId) =
          none := by
        unfold findClaimable
        rw [List.find?_eq_none]
        intro e he
        by_cases hid : e.status = .idle
        · have hes := hsingle e he hid
          simp [hid, hes, mem_startClaim_self]
        · simp [hid]
      simp [provision, provisionStart, hnone]
    · intro cache claiming i hfc
      exact ⟨(findClaimable_sound cache claiming i hfc).2.1,
        (findClaimable_sound cache claiming i hfc).2.2⟩
    · intro env meta claiming cache0 fetchUrl probe acc svc hc
      have hc' : svc.id ∈ claiming := by simpa using hc
      unfold tickStep
      simp [hc']
    · intro agentIds claiming cache e he hc
      have hc' : e.serviceId ∈ claiming := by simpa using hc
      exact List.mem_filter.mpr ⟨he, by simp [hc']⟩

/-- Witness for C2: the double-claim race on a pool with one idle instance. -/
theorem claim_guard_blocks_second_claim_witness :
    isBeingClaimed ["svc-A"] "svc-A" = true ∧
    provision "tokyo" "plan trips" none ⟨true, none, true, none, true, 0⟩
      ⟨[entryA], ["svc-A"], []⟩ = (⟨[entryA], ["svc-A"], []⟩, .noIdle) := by
  have h := claim_guard_blocks_second_claim stOneIdle entryA
    ⟨[entryA], ["svc-A"], []⟩ rfl
    (by intro e he _
        have he' := List.mem_singleton.mp he
        subst he'
        rfl)
  exact ⟨h.1, h.2.2.1 "tokyo" "plan trips" none ⟨true, none, true, none, true, 0⟩⟩

/-- Entries of `cacheSet cache e` come from `cache` or are `e` itself. -/
theorem mem_cacheSet (cache : List Entry) (E e : Entry) (h : e ∈ cacheSet cache E) :
    e ∈ cache ∨ e = E := by
  unfold cacheSet at h
  split at h
  · rcases List.mem_map.mp h with ⟨x, hx, hxe⟩
    by_cases hs : x.serviceId = E.serviceId
    · right
      rw [if_pos hs] at hxe
      exact hxe.symm
    · left
      rw [if_neg hs] at hxe
      rw [← hxe]
      exact hx
  · rcases List.mem_append.mp h with h | h
    · left; exact h
    · right; simpa using h

/-- `provisionStart` returning `none` means nothing was claimable. -/
theorem provisionStart_none (st : PoolState) (h : provisionStart st = none) :
    findClaimable st.cache st.claiming = none := by
  unfold provisionStart at h
  cases hq : findClaimable st.cache st.claiming with
  | none => rfl
  | some i1 => rw [hq] at h; simp at h

/-- `provisionStart` returning a pair pins down the selected instance and the
new state: the instance was claimable and only the claiming set changed. -/
theorem provisionStart_some (st : PoolState) (i0 : Entry) (st1 : PoolState)
    (h : provisionStart st = some (i0, st1)) :
    findClaimable st.cache st.claiming = some i0 ∧
    st.claiming.contains i0.serviceId = false ∧
    st1 = ⟨st.cache, startClaim st.claiming i0.serviceId, st.meta⟩ := by
  unfold provisionStart at h
  cases hq : findClaimable st.cache st.claiming with
  | none => rw [hq] at h; simp at h
  | some i1 =>
    rw [hq] at h
    simp only [Option.some.injEq, Prod.mk.injEq] at h
    obtain ⟨hi, hst⟩ := h
    subst hi
    subst hst
    exact ⟨rfl, (findClaimable_sound st.cache st.claiming i1 hq).2.2, rfl⟩

/-- C3: within a claim, every step that fails before the metadata insert
surfaces the error, releases the claim-in-progress guard (the claiming set is
restored on every exit path) and leaves both the cache and the metadata table
untouched, so the instance stays idle; and any entry that newly became
`claimed` is backed by a metadata row written in the same act. -/
theorem provision_error_handling (a i : String) (j : Option String)
    (io : ProvisionIO) (st st' : PoolState) (r : ProvResult)
    (h : provision a i j io st = (st', r)) :
    (∀ step, r = .failed step → st'.cache = st.cache ∧ st'.meta = st.meta) ∧
    st'.claiming = st.claiming ∧
    (∀ e, e ∈ st'.cache → e.status = .claimed → e ∉ st.cache →
      ∃ row, row ∈ st'.meta ∧ row.railway_service_id = e.serviceId) ∧
    (findClaimable st.cache st.claiming ≠ none →
      (io.provisionOk = false → r = .failed "provision") ∧
      (io.provisionOk = true → io.setup = none → r = .failed "setup") ∧
      (io.provisionOk = true → io.setup ≠ none → io.completeOk = false →
        r = .failed "setup complete") ∧
      (io.provisionOk = true → io.setup ≠ none → io.completeOk = true →
        j ≠ none → io.joinResult = none → r = .failed "join") ∧
      (io.provisionOk = true → io.setup ≠ none → io.completeOk = true →
        (j = none ∨ io.joinResult ≠ none) → io.insertOk = false →
        r = .failed "insertMetadata")) := by
  unfold provision at h
  cases hps : provisionStart st with
  | none =>
    rw [hps] at h
    injection h with h1 h2
    subst h1
    subst h2
    refine ⟨?_, rfl, ?_, ?_⟩
    · intro step hstep
      exact nomatch hstep
    · intro e he _ hne
      exact absurd he hne
    · intro hne
      exact absurd (provisionStart_none st hps) hne
  | some p =>
    obtain ⟨i0, st1⟩ := p
    rw [hps] at h
    obtain ⟨hfc, hnc, hst1⟩ := provisionStart_some st i0 st1 hps
    subst hst1
    have hend : endClaim (startClaim st.claiming i0.serviceId) i0.serviceId =
        st.claiming := endClaim_startClaim st.claiming i0.serviceId hnc
    unfold provisionCommit provisionFinish at h
    cases hPO : io.provisionOk with
    | false =>
      simp only [hPO, Bool.not_false, if_true, Prod.mk.injEq] at h
      obtain ⟨h1, h2⟩ := h
      subst h1
      subst h2
      refine ⟨fun step _ => ⟨rfl, rfl⟩, hend, ?_, ?_⟩
      · intro e he _ hne
        exact absurd he hne
      · intro _
        refine ⟨fun _ => rfl, ?_, ?_, ?_, ?_⟩ <;> (intros; simp_all)
    | true =>
      simp only [hPO, Bool.not_true, Bool.false_eq_true, if_false] at h
      cases hS : io.setup with
      | none =>
        rw [hS] at h
        simp only [Prod.mk.injEq] at h
        obtain ⟨h1, h2⟩ := h
        subst h1
        subst h2
        refine ⟨fun step _ => ⟨rfl, rfl⟩, hend, ?_, ?_⟩
        · intro e he _ hne
          exact absurd he hne
        · intro _
          refine ⟨?_, fun _ _ => rfl, ?_, ?_, ?_⟩ <;> (intros; simp_all)
      | some sres =>
        rw [hS] at h
        cases hC : io.completeOk with
        | false =>
          simp only [hC, Bool.not_false, if_true, Prod.mk.injEq] at h
          obtain ⟨h1, h2⟩ := h
          subst h1
          subst h2
          refine ⟨fun step _ => ⟨rfl, rfl⟩, hend, ?_, ?_⟩
          · intro e he _ hne
            exact absurd he hne
          · intro _
            refine ⟨?_, ?_, fun _ _ _ => rfl, ?_, ?_⟩ <;> (intros; simp_all)
        | true =>
          simp only [hC, Bool.not_true, Bool.false_eq_true, if_false] at h
          cases j with
          | none =>
            cases hI : io.insertOk with
            | false =>
              simp only [hI, Bool.not_false, if_true, Prod.mk.injEq] at h
              obtain ⟨h1, h2⟩ := h
              subst h1
              subst h2
              refine ⟨fun step _ => ⟨rfl, rfl⟩, hend, ?_, ?_⟩
              · intro e he _ hne
                exact absurd he hne
              · intro _
                refine ⟨?_, ?_, ?_, ?_, fun _ _ _ _ _ => rfl⟩ <;> (intros; simp_all)
            | true =>
              simp only [hI, Bool.not_true, Bool.false_eq_true, if_false,
                Prod.mk.injEq] at h
              obtain ⟨h1, h2⟩ := h
              subst h1
              subst h2
              refine ⟨?_, hend, ?_, ?_⟩
              · intro step hstep
                exact nomatch hstep
              · intro e he _ hne
                rcases mem_cacheSet _ _ e he with h' | h'
                · exact absurd h' hne
                · refine ⟨_, List.mem_append_right _ (List.mem_singleton_self _), ?_⟩
                  rw [h']
              · intro _
                refine ⟨?_, ?_, ?_, ?_, ?_⟩ <;> (intros; simp_all)
          | some ju =>
            cases hJ : io.joinResult with
            | none =>
              rw [hJ] at h
              simp only [Prod.mk.injEq] at h
              obtain ⟨h1, h2⟩ := h
              subst h1
              subst h2
              refine ⟨fun step _ => ⟨rfl, rfl⟩, hend, ?_, ?_⟩
              · intro e he _ hne
                exact absurd he hne
              · intro _
                refine ⟨?_, ?_, ?_, fun _ _ _ _ _ => rfl, ?_⟩ <;> (intros; simp_all)
            | some jr =>
              rw [hJ] at h
              cases hI : io.insertOk with
              | false =>
                simp only [hI, Bool.not_false, if_true, Prod.mk.injEq] at h
                obtain ⟨h1, h2⟩ := h
                subst h1
                subst h2
                refine ⟨fun step _ => ⟨rfl, rfl⟩, hend, ?_, ?_⟩
                · intro e he _ hne
                  exact absurd he hne
                · intro _
                  refine ⟨?_, ?_, ?_, ?_, fun _ _ _ _ _ => rfl⟩ <;> (intros; simp_all)
              | true =>
                simp only [hI, Bool.not_true, Bool.false_eq_true, if_false,
                  Prod.mk.injEq] at h
                obtain ⟨h1, h2⟩ := h
                subst h1
                subst h2
                refine ⟨?_, hend, ?_, ?_⟩
                · intro step hstep
                  exact nomatch hstep
                · intro e he _ hne
                  rcases mem_cacheSet _ _ e he with h' | h'
                  · exact absurd h' hne
                  · refine ⟨_,
                      List.mem_append_right _ (List.mem_singleton_self _), ?_⟩
                    rw [h']
                · intro _
                  refine ⟨?_, ?_, ?_, ?_, ?_⟩ <;> (intros; simp_all)

/-- `getCounts`'s fold, started from an arbitrary accumulator. -/
theorem getCounts_foldl (cache : List Entry) (c : Counts) :
    cache.foldl (fun c i =>
      match i.status with
      | .starting => { c with starting := c.starting + 1 }
      | .idle => { c with idle := c.idle + 1 }
      | .claimed => { c with claimed := c.claimed + 1 }
      | .crashed => { c with crashed := c.crashed + 1 }
      | _ => c) c =
    ⟨c.starting + countStatus cache .starting, c.idle + countStatus cache .idle,
     c.claimed + countStatus cache .claimed,
     c.crashed + countStatus cache .crashed⟩ := by
  induction cache generalizing c with
  | nil => simp [countStatus]
  | cons x xs ih =>
    simp only [List.foldl_cons]
    rw [ih]
    rcases hx : x.status <;>
      simp [countStatus, List.countP_cons, hx, Counts.mk.injEq] <;> omega

/-- `getCounts` counts each status with `countP`. -/
theorem getCounts_eq (cache : List Entry) :
    getCounts cache = ⟨countStatus cache .starting, countStatus cache .idle,
      countStatus cache .claimed, countStatus cache .crashed⟩ := by
  have h := getCounts_foldl cache ⟨0, 0, 0, 0⟩
  simpa [getCounts] using h

/-- Inserting an entry under a key no existing entry has is an append. -/
theorem cacheSet_fresh (cache : List Entry) (e : Entry)
    (h : ∀ x ∈ cache, x.serviceId ≠ e.serviceId) :
    cacheSet cache e = cache ++ [e] := by
  unfold cacheSet
  rw [if_neg]
  intro hany
  rcases List.any_eq_true.mp hany with ⟨x, hx, hbeq⟩
  exact h x hx (by simpa using hbeq)

/-- A list of all-`some` options filter-maps to a list of the same length. -/
theorem filterMap_map_length (f : CreateOk → Entry) (l : List (Option CreateOk))
    (h : ∀ r ∈ l, r.isSome) :
    (l.filterMap (fun r => r.map f)).length = l.length := by
  induction l with
  | nil => rfl
  | cons r rs ih =>
    cases r with
    | none => exact absurd (h none (List.mem_cons_self _ _)) (by simp)
    | some ok =>
      simp only [List.filterMap_cons, Option.map_some', List.length_cons]
      rw [ih (fun r hr => h r (List.mem_cons_of_mem _ hr))]

/-- `countStatus` distributes over append. -/
theorem countStatus_append (c1 c2 : List Entry) (s : PoolStatus) :
    countStatus (c1 ++ c2) s = countStatus c1 s + countStatus c2 s := by
  unfold countStatus
  exact List.countP_append _ _ _

/-- Every entry created by the replenish loop is `starting`, so the created
batch counts fully towards `starting` and not at all towards the others. -/
theorem countStatus_new_entries (now : Int) (results : List (Option CreateOk)) :
    countStatus (results.filterMap (fun r => r.map (newStartingEntry now)))
        .starting =
      (results.filterMap (fun r => r.map (newStartingEntry now))).length ∧
    countStatus (results.filterMap (fun r => r.map (newStartingEntry now)))
      .idle = 0 ∧
    countStatus (results.filterMap (fun r => r.map (newStartingEntry now)))
      .claimed = 0 ∧
    countStatus (results.filterMap (fun r => r.map (newStartingEntry now)))
      .crashed = 0 := by
  have hmem : ∀ e ∈ results.filterMap (fun r => r.map (newStartingEntry now)),
      e.status = .starting := by
    intro e he
    rcases List.mem_filterMap.mp he with ⟨r, _, hre⟩
    rcases r with _ | ok
    · simp at hre
    · simp only [Option.map_some', Option.some.injEq] at hre
      rw [← hre]
      rfl
  refine ⟨?_, ?_, ?_, ?_⟩
  · exact List.countP_eq_length.mpr (fun e he => by simp [hmem e he])
  · exact List.countP_eq_zero.mpr (fun e he => by simp [hmem e he])
  · exact List.countP_eq_zero.mpr (fun e he => by simp [hmem e he])
  · exact List.countP_eq_zero.mpr (fun e he => by simp [hmem e he])

/-- The replenish loop's fold, on all-successful pairwise-fresh creation
results, appends one `starting` entry per result and counts them. -/
theorem applyCreates_append (now : Int) (results : List (Option CreateOk)) :
    ∀ (cache : List Entry) (n0 : Nat),
    (∀ r ∈ results, ∀ ok, r = some ok →
      ∀ x ∈ cache, x.serviceId ≠ ok.serviceId) →
    results.Pairwise (fun r1 r2 => ∀ o1 o2, r1 = some o1 → r2 = some o2 →
      o1.serviceId ≠ o2.serviceId) →
    results.foldl (fun acc r =>
      match r with
      | some ok => (cacheSet acc.1 (newStartingEntry now ok), acc.2 + 1)
      | none => acc) (cache, n0) =
    (cache ++ results.filterMap (fun r => r.map (newStartingEntry now)),
      n0 + (results.filterMap (fun r => r.map (newStartingEntry now))).length) := by
  induction results with
  | nil => intro cache n0 _ _; simp
  | cons r rs ih =>
    intro cache n0 hfresh hpair
    rcases List.pairwise_cons.mp hpair with ⟨hhead, htail⟩
    cases r with
    | none =>
      simp only [List.foldl_cons, List.filterMap_cons, Option.map_none']
      exact ih cache n0
        (fun r' hr' ok hok x hx => hfresh r' (List.mem_cons_of_mem _ hr') ok hok x hx)
        htail
    | some ok =>
      simp only [List.foldl_cons, List.filterMap_cons, Option.map_some']
      have hE : cacheSet cache (newStartingEntry now ok) =
          cache ++ [newStartingEntry now ok] := by
        apply cacheSet_fresh
        intro x hx
        exact hfresh (some ok) (List.mem_cons_self _ _) ok rfl x hx
      rw [hE]
      have hfresh' : ∀ r' ∈ rs, ∀ ok', r' = some ok' →
          ∀ x ∈ cache ++ [newStartingEntry now ok], x.serviceId ≠ ok'.serviceId := by
        intro r' hr' ok' hok' x hx
        rcases List.mem_append.mp hx with hx | hx
        · exact hfresh r' (List.mem_cons_of_mem _ hr') ok' hok' x hx
        · have hxE : x = newStartingEntry now ok := by simpa using hx
          rw [hxE]
          exact hhead r' hr' ok ok' rfl hok'
      rw [ih (cache ++ [newStartingEntry now ok]) (n0 + 1) hfresh' htail]
      simp [List.append_assoc]
      omega

/-- Appending a batch of freshly created `starting` entries moves only the
`starting` counter. -/
theorem getCounts_append_new (now : Int) (cache : List Entry)
    (results : List (Option CreateOk)) :
    getCounts (cache ++ results.filterMap (fun r => r.map (newStartingEntry now))) =
      ⟨(getCounts cache).starting +
        (results.filterMap (fun r => r.map (newStartingEntry now))).length,
       (getCounts cache).idle, (getCounts cache).claimed,
       (getCounts cache).crashed⟩ := by
  rw [getCounts_eq, getCounts_eq cache]
  rcases countStatus_new_entries now results with ⟨hs0, hi0, hc0, hx0⟩
  simp [countStatus_append, hs0, hi0, hc0, hx0]

/-- C4: the tick's replenish phase, run on the rebuilt cache, creates exactly
`min(deficit, MAX_TOTAL - total)` instances when `idle + starting < MIN_IDLE`
and that minimum is positive, and none otherwise; with `MIN_IDLE = 0` it
never creates spontaneously; and whenever the cache totals at most
`MAX_TOTAL` beforehand, `starting + idle + claimed ≤ MAX_TOTAL` still holds
after the phase — so a tick whose rebuilt cache respects the cap ends within
the cap.  (Creation attempts are assumed to succeed with provider-fresh
service ids, and enough attempts are available.) -/
theorem tick_replenish_capacity (env : TickEnv)
    (createResults : List (Option CreateOk)) (cache : List Entry)
    (hok : ∀ r ∈ createResults, r.isSome)
    (hfresh : ∀ r ∈ createResults, ∀ ok, r = some ok →
      ∀ x ∈ cache, x.serviceId ≠ ok.serviceId)
    (hpair : createResults.Pairwise (fun r1 r2 => ∀ o1 o2, r1 = some o1 →
      r2 = some o2 → o1.serviceId ≠ o2.serviceId))
    (hlen : env.MAX_TOTAL - (((getCounts cache).starting : Int) +
      (getCounts cache).idle + (getCounts cache).claimed) ≤
      (createResults.length : Int)) :
    ((0 < env.MIN_IDLE - (((getCounts cache).idle : Int) +
        (getCounts cache).starting) ∧
      0 < min (env.MIN_IDLE - (((getCounts cache).idle : Int) +
          (getCounts cache).starting))
        (env.MAX_TOTAL - (((getCounts cache).starting : Int) +
          (getCounts cache).idle + (getCounts cache).claimed))) →
      (((tickReplenish env createResults cache).2 : Int) =
        min (env.MIN_IDLE - (((getCounts cache).idle : Int) +
            (getCounts cache).starting))
          (env.MAX_TOTAL - (((getCounts cache).starting : Int) +
            (getCounts cache).idle + (getCounts cache).claimed)))) ∧
    (¬(0 < env.MIN_IDLE - (((getCounts cache).idle : Int) +
        (getCounts cache).starting) ∧
      0 < min (env.MIN_IDLE - (((getCounts cache).idle : Int) +
          (getCounts cache).starting))
        (env.MAX_TOTAL - (((getCounts cache).starting : Int) +
          (getCounts cache).idle + (getCounts cache).claimed))) →
      tickReplenish env createResults cache = (cache, 0)) ∧
    (env.MIN_IDLE = 0 → (tickReplenish env createResults cache).2 = 0) ∧
    (((getCounts cache).starting : Int) + (getCounts cache).idle +
        (getCounts cache).claimed ≤ env.MAX_TOTAL →
      ((getCounts (tickReplenish env createResults cache).1).starting : Int) +
        (getCounts (tickReplenish env createResults cache).1).idle +
        (getCounts (tickReplenish env createResults cache).1).claimed ≤
        env.MAX_TOTAL) := by
  by_cases h1 : 0 < env.MIN_IDLE - (((getCounts cache).idle : Int) +
      (getCounts cache).starting)
  · by_cases h2 : 0 < min (env.MIN_IDLE - (((getCounts cache).idle : Int) +
        (getCounts cache).starting))
      (env.MAX_TOTAL - (((getCounts cache).starting : Int) +
        (getCounts cache).idle + (getCounts cache).claimed))
    · have hres : tickReplenish env createResults cache =
          applyCreates env.now cache (createResults.take
            (min (env.MIN_IDLE - (((getCounts cache).idle : Int) +
                (getCounts cache).starting))
              (env.MAX_TOTAL - (((getCounts cache).starting : Int) +
                (getCounts cache).idle + (getCounts cache).claimed))).toNat) := by
        unfold tickReplenish
        rw [if_pos h1, if_pos h2]
      have hkle : min (env.MIN_IDLE - (((getCounts cache).idle : Int) +
            (getCounts cache).starting))
          (env.MAX_TOTAL - (((getCounts cache).starting : Int) +
            (getCounts cache).idle + (getCounts cache).claimed)) ≤
          env.MAX_TOTAL - (((getCounts cache).starting : Int) +
            (getCounts cache).idle + (getCounts cache).claimed) :=
        min_le_right _ _
      have hklen : min (env.MIN_IDLE - (((getCounts cache).idle : Int) +
            (getCounts cache).starting))
          (env.MAX_TOTAL - (((getCounts cache).starting : Int) +
            (getCounts cache).idle + (getCounts cache).claimed)) ≤
          (createResults.length : Int) := le_trans hkle hlen
      set k : Int := min (env.MIN_IDLE - (((getCounts cache).idle : Int) +
          (getCounts cache).starting))
        (env.MAX_TOTAL - (((getCounts cache).starting : Int) +
          (getCounts cache).idle + (getCounts cache).claimed)) with hkdef
      have htake_all : ∀ r ∈ createResults.take k.toNat, r.isSome :=
        fun r hr => hok r (List.take_subset _ _ hr)
      have htake_fresh : ∀ r ∈ createResults.take k.toNat, ∀ ok, r = some ok →
          ∀ x ∈ cache, x.serviceId ≠ ok.serviceId :=
        fun r hr => hfresh r (List.take_subset _ _ hr)
      have htake_pair := List.Pairwise.sublist (List.take_sublist k.toNat createResults) hpair
      have hA := applyCreates_append env.now (createResults.take k.toNat) cache 0
        htake_fresh htake_pair
      have hAC : applyCreates env.now cache (createResults.take k.toNat) =
          (cache ++ (createResults.take k.toNat).filterMap
            (fun r => r.map (newStartingEntry env.now)),
           0 + ((createResults.take k.toNat).filterMap
            (fun r => r.map (newStartingEntry env.now))).length) := by
        unfold applyCreates
        exact hA
      have hfm : ((createResults.take k.toNat).filterMap
          (fun r => r.map (newStartingEntry env.now))).length = k.toNat := by
        rw [filterMap_map_length _ _ htake_all, List.length_take]
        omega
      refine ⟨?_, ?_, ?_, ?_⟩
      · intro _
        rw [hres, hAC]
        simp only [hfm]
        omega
      · intro hno
        exact absurd ⟨h1, h2⟩ hno
      · intro h0
        rw [h0] at h1
        omega
      · intro hcap
        rw [hres, hAC]
        simp only [getCounts_append_new, hfm]
        omega
    · have hres : tickReplenish env createResults cache = (cache, 0) := by
        unfold tickReplenish
        rw [if_pos h1, if_neg h2]
      refine ⟨fun hc => absurd hc.2 h2, fun _ => hres, fun _ => by rw [hres], ?_⟩
      intro hcap
      rw [hres]
      exact hcap
  · have hres : tickReplenish env createResults cache = (cache, 0) := by
      unfold tickReplenish
      rw [if_neg h1]
    refine ⟨fun hc => absurd hc.1 h1, fun _ => hres, fun _ => by rw [hres], ?_⟩
    intro hcap
    rw [hres]
    exact hcap

/-- Witness for C4: with `MIN_IDLE = 1`, `MAX_TOTAL = 1` and an empty cache,
one successful creation attempt yields exactly one new instance. -/
theorem tick_replenish_capacity_witness :
    (tickReplenish ⟨some "env-1", 1, 1, 900000, 0⟩
      [some ⟨"bbbb", "svc-B", "b.example"⟩] ([] : List Entry)).2 = 1 := by
  have h := (tick_replenish_capacity ⟨some "env-1", 1, 1, 900000, 0⟩
      [some ⟨"bbbb", "svc-B", "b.example"⟩] []
      (by simp) (by simp) (by simp) (by decide)).1 ⟨by decide, by decide⟩
  simp [getCounts] at h
  omega

/-- The NDJSON fold from an arbitrary starting id: the result is the last id
carried by any event, or the starting id when none is. -/
theorem consumeNdjson_foldl (lines : List (Option NdjsonMsg)) :
    ∀ acc : Option String,
    lines.foldl (fun lastId l =>
      match l with
      | none => lastId
      | some msg =>
        match msg.id with
        | some i => some i
        | none => lastId) acc =
    ((lines.filterMap ndjsonEventId).getLast?).or acc := by
  induction lines with
  | nil => intro acc; simp
  | cons l ls ih =>
    intro acc
    simp only [List.foldl_cons, List.filterMap_cons]
    cases l with
    | none => simpa [ndjsonEventId] using ih acc
    | some msg =>
      cases hmi : msg.id with
      | none => simpa [ndjsonEventId, hmi] using ih acc
      | some i =>
        simp only [ndjsonEventId, hmi]
        rw [ih (some i)]
        cases hfm : ls.filterMap ndjsonEventId with
        | nil => simp [hfm]
        | cons x xs =>
          have hne : x :: xs ≠ [] := by simp
          rw [List.getLast?_cons_cons, List.getLast?_eq_getLast _ hne]
          simp

/-- `consumeNdjsonStream` returns the id of the last id-bearing event, and
`null` when there is none. -/
theorem consumeNdjsonStream_eq (lines : List (Option NdjsonMsg)) :
    consumeNdjsonStream lines = (lines.filterMap ndjsonEventId).getLast? := by
  have h := consumeNdjson_foldl lines none
  simpa [consumeNdjsonStream] using h

/-- C8 counterexample: a stream whose terminal event carries no id makes
`createCheckpoint` return successfully with a `null` checkpoint id — it does
not raise an error. -/
theorem createCheckpoint_succeeds_without_id :
    createCheckpoint [some ⟨none, some "complete"⟩] = Except.ok none := rfl

/-- C8 (amended): `createCheckpoint` consumes the stream and always succeeds,
returning the id of the last event that carries one; when no id arrives it
returns `null` instead of failing. -/
theorem createCheckpoint_returns_last_id (stream : List (Option NdjsonMsg)) :
    createCheckpoint stream =
      Except.ok ((stream.filterMap ndjsonEventId).getLast?) ∧
    ((∀ l ∈ stream, ∀ msg, l = some msg → msg.id = none) →
      createCheckpoint stream = Except.ok none) := by
  constructor
  · unfold createCheckpoint
    rw [consumeNdjsonStream_eq]
  · intro h
    unfold createCheckpoint
    rw [consumeNdjsonStream_eq]
    have hnil : stream.filterMap ndjsonEventId = [] := by
      rw [List.filterMap_eq_nil_iff]
      intro l hl
      cases l with
      | none => rfl
      | some msg => simpa [ndjsonEventId] using h (some msg) hl msg rfl
    rw [hnil]
    rfl

/-- Witness for C8 (amended): an id-less terminal event still succeeds. -/
theorem createCheckpoint_returns_last_id_witness :
    createCheckpoint [some ⟨none, some "complete"⟩] = Except.ok none := by
  exact (createCheckpoint_returns_last_id [some ⟨none, some "complete"⟩]).2
    (by intro l hl msg hlm
        simp at hl
        rw [hl] at hlm
        injection hlm with h
        rw [← h])

/-- C9: `recycleInstance` on an existing instance falls through to destroy
(deleting the database row) when no checkpoint id is recorded, falls back to
destroy when the checkpoint restore, the gateway restart or the readiness
wait fails, and on success marks the row idle: claim-time fields cleared,
status `idle`, url refreshed and the golden checkpoint retained. -/
theorem recycleInstance_spec (rows : List DbInstance) (id : String)
    (io : RecycleIO) :
    (rows.find? (fun r => r.id == id) = none →
      recycleInstance rows id io = (rows, .notFound)) ∧
    (∀ inst, rows.find? (fun r => r.id == id) = some inst →
      inst.checkpoint_id = none →
      recycleInstance rows id io = (deleteInstance rows id, .destroyed)) ∧
    (∀ inst cp, rows.find? (fun r => r.id == id) = some inst →
      inst.checkpoint_id = some cp →
      (io.restoreOk && io.startGatewayOk && io.waitReadyOk) = false →
      recycleInstance rows id io = (deleteInstance rows id, .destroyed)) ∧
    (∀ inst cp, rows.find? (fun r => r.id == id) = some inst →
      inst.checkpoint_id = some cp →
      (io.restoreOk && io.startGatewayOk && io.waitReadyOk) = true →
      recycleInstance rows id io =
        (markIdle rows inst.id inst.sprite_url none, .recycled) ∧
      (∀ r ∈ rows, r.id = inst.id →
        ({ r with
           status := "idle"
           sprite_url := inst.sprite_url
           checkpoint_id := r.checkpoint_id
           claimed_by := none
           invite_url := none
           conversation_id := none
           instructions := none
           join_url := none
           claimed_at := none } : DbInstance) ∈
          (recycleInstance rows id io).1)) := by
  refine ⟨?_, ?_, ?_, ?_⟩
  · intro h
    unfold recycleInstance
    rw [h]
  · intro inst hfind hcp
    unfold recycleInstance
    rw [hfind]
    simp [hcp]
  · intro inst cp hfind hcp hio
    unfold recycleInstance
    rw [hfind]
    simp [hcp, hio]
  · intro inst cp hfind hcp hio
    have hres : recycleInstance rows id io =
        (markIdle rows inst.id inst.sprite_url none, .recycled) := by
      unfold recycleInstance
      rw [hfind]
      simp [hcp, hio]
    refine ⟨hres, ?_⟩
    intro r hr hrid
    rw [hres]
    unfold markIdle
    refine List.mem_map.mpr ⟨r, hr, ?_⟩
    rw [if_pos hrid]
    simp

/-- Witness for C9: a claimed row with checkpoint `v0` is recycled to idle
when all steps succeed, and destroyed when the restore fails. -/
theorem recycleInstance_spec_witness :
    recycleInstance [rowD] "dddd" ⟨true, true, true⟩ =
      (markIdle [rowD] rowD.id rowD.sprite_url none, .recycled) ∧
    recycleInstance [rowD] "dddd" ⟨false, true, true⟩ =
      (deleteInstance [rowD] "dddd", .destroyed) := by
  refine ⟨?_, ?_⟩
  · exact ((recycleInstance_spec [rowD] "dddd" ⟨true, true, true⟩).2.2.2 rowD "v0"
      rfl rfl rfl).1
  · exact (recycleInstance_spec [rowD] "dddd" ⟨false, true, true⟩).2.2.1 rowD "v0"
      rfl rfl rfl

/-- Witness for C3: a failing `/pool/provision` call surfaces the error,
releases the claim-in-progress guard and leaves the pool state unchanged. -/
theorem provision_error_handling_witness :
    provision "tokyo" "plan trips" none ⟨false, none, true, none, true, 0⟩
      stOneIdle = (stOneIdle, ProvResult.failed "provision") ∧
    stOneIdle.claiming = stOneIdle.claiming := by
  have h := provision_error_handling "tokyo" "plan trips" none
    ⟨false, none, true, none, true, 0⟩ stOneIdle stOneIdle
    (ProvResult.failed "provision") rfl
  exact ⟨rfl, h.2.1⟩
